import Mathlib

/-!
Verification of the rollkit validity / chain-progression core against its
natural-language specification.  The definitions below are shallow embeddings
of the repository's source:

* `Retry`, `getNodeHeight`, `waitForAtLeastNDAIncludedHeight` from the node
  test-helper file (package `node`);
* `getAllMetadata`, `getKnownMetadataKeysList`, `getBlockByHeight` from
  `types/metadata.go` (the `StoreServer` RPC methods and the metadata key
  catalog);
* `Block.validateBasic` and `SignedHeader.verify` from the pseudocode in
  `specs/src/specs/block-validity.md`.

External collaborators (the durable store, the sync services, cryptographic
hash and signature primitives) are modelled as explicit function parameters,
as the spec treats them as assumed-correct external functions.  Machine
integers (`uint64`) are modelled as `Nat`; Go's `int` (the retry counter) as
`Int`; Go errors as `Option String` (`none` = nil error) or `Except String`.
-/

namespace Rollkit

/-! ## Bounded retry runner

Modelled from `Retry` in the node helper file:

    func Retry(tries int, durationBetweenAttempts time.Duration, fn func() error) (err error) {
        for i := 1; i <= tries-1; i++ {
            err = fn()
            if err == nil { return nil }
            time.Sleep(durationBetweenAttempts)
        }
        return fn()
    }

The loop body runs for `i = 1 .. tries-1`, i.e. `max (tries-1) 0` times, and
the final `fn()` after the loop is always invoked.  `fn` is modelled as a
function from the 0-based invocation index to its result (`none` = the Go
`nil` error, success).  The sleep is time-only and has no observable effect
in this model. -/

/-- One execution of the retry loop: `k` is the index of the next invocation
of `fn`, the `Nat` argument is the number of loop iterations still allowed
before the mandatory final call. -/
def retryLoop {α : Type} (fn : Nat → Option α) : Nat → Nat → Option α
  | k, 0 => fn k
  | k, m + 1 =>
    match fn k with
    | none => none
    | some _ => retryLoop fn (k + 1) m

/-- Number of invocations of `fn` that `retryLoop` performs. -/
def retryLoopCount {α : Type} (fn : Nat → Option α) : Nat → Nat → Nat
  | _, 0 => 1
  | k, m + 1 =>
    match fn k with
    | none => 1
    | some _ => 1 + retryLoopCount fn (k + 1) m

/-- Modelled from `Retry(tries, durationBetweenAttempts, fn)` with exact
integer arithmetic: the loop runs `max (tries - 1) 0` iterations followed
by one final invocation.  This matches Go's 64-bit `int` semantics whenever
computing `tries - 1` does not wrap, i.e. for every int64 input except
`math.MinInt64`; `RetryInt64` below applies the 64-bit wraparound to the
loop bound and agrees with `Retry` on that domain
(`RetryInt64_eq_Retry`). -/
def Retry {α : Type} (tries : Int) (fn : Nat → Option α) : Option α :=
  retryLoop fn 0 (tries - 1).toNat

/-- Number of invocations of `fn` that `Retry tries _ fn` performs. -/
def RetryCount {α : Type} (tries : Int) (fn : Nat → Option α) : Nat :=
  retryLoopCount fn 0 (tries - 1).toNat

/-- Two's-complement wraparound of an integer into the signed 64-bit range,
as Go's `int` arithmetic computes it (`9223372036854775808 = 2^63`). -/
def wrap64 (x : Int) : Int :=
  (x + 9223372036854775808) % 18446744073709551616 - 9223372036854775808

/-- Modelled from `Retry(tries, durationBetweenAttempts, fn)` with Go's
64-bit `int` semantics for the loop bound `tries - 1`: at
`tries = math.MinInt64` the subtraction wraps to `math.MaxInt64`.  The
model performs `max (wrap64 (tries - 1)) 0` loop iterations and the final
invocation; in the wrapped case Go's loop counter `i` itself also wraps at
`math.MaxInt64` and the loop never exits while `fn` keeps failing, so
there the model's invocation count is a lower bound on Go's — on every
other int64 input the model is exact. -/
def RetryInt64 {α : Type} (tries : Int) (fn : Nat → Option α) : Option α :=
  retryLoop fn 0 (wrap64 (tries - 1)).toNat

/-- Number of invocations of `fn` that `RetryInt64 tries _ fn` performs. -/
def RetryInt64Count {α : Type} (tries : Int) (fn : Nat → Option α) : Nat :=
  retryLoopCount fn 0 (wrap64 (tries - 1)).toNat

theorem retryLoopCount_le {α : Type} (fn : Nat → Option α) :
    ∀ (m k : Nat), retryLoopCount fn k m ≤ m + 1 := by
  intro m
  induction m with
  | zero => intro k; simp [retryLoopCount]
  | succ m ih =>
    intro k
    cases h : fn k with
    | none => simp [retryLoopCount, h]
    | some e =>
      have := ih (k + 1)
      simp only [retryLoopCount, h]
      omega

theorem retryLoopCount_pos {α : Type} (fn : Nat → Option α) :
    ∀ (m k : Nat), 1 ≤ retryLoopCount fn k m := by
  intro m k
  cases m with
  | zero => simp [retryLoopCount]
  | succ m =>
    cases h : fn k with
    | none => simp [retryLoopCount, h]
    | some e => simp [retryLoopCount, h]

theorem retryLoop_all_fail {α : Type} (fn : Nat → Option α) :
    ∀ (m k : Nat), (∀ i, i < m → fn (k + i) ≠ none) →
      retryLoop fn k m = fn (k + m) ∧ retryLoopCount fn k m = m + 1 := by
  intro m
  induction m with
  | zero => intro k _; simp [retryLoop, retryLoopCount]
  | succ m ih =>
    intro k hall
    have h0 : fn k ≠ none := by
      have := hall 0 (Nat.succ_pos m)
      simpa using this
    cases h : fn k with
    | none => exact absurd h h0
    | some e =>
      have hrest : ∀ i, i < m → fn (k + 1 + i) ≠ none := by
        intro i hi
        have := hall (i + 1) (by omega)
        have harith : k + (i + 1) = k + 1 + i := by omega
        rwa [harith] at this
      have := ih (k + 1) hrest
      constructor
      · simp only [retryLoop, h]
        rw [this.1]
        congr 1
        omega
      · simp only [retryLoopCount, h]
        omega

theorem retryLoop_first_success {α : Type} (fn : Nat → Option α) :
    ∀ (m k j : Nat), j ≤ m → fn (k + j) = none →
      (∀ i, i < j → fn (k + i) ≠ none) →
      retryLoop fn k m = none ∧ retryLoopCount fn k m = j + 1 := by
  intro m
  induction m with
  | zero =>
    intro k j hj hsucc _
    have : j = 0 := Nat.le_zero.mp hj
    subst this
    simp only [Nat.add_zero] at hsucc
    simp [retryLoop, retryLoopCount, hsucc]
  | succ m ih =>
    intro k j hj hsucc hbefore
    cases j with
    | zero =>
      simp only [Nat.add_zero] at hsucc
      simp [retryLoop, retryLoopCount, hsucc]
    | succ j =>
      have h0 : fn k ≠ none := by
        have := hbefore 0 (Nat.succ_pos j)
        simpa using this
      cases h : fn k with
      | none => exact absurd h h0
      | some e =>
        have hsucc' : fn (k + 1 + j) = none := by
          have harith : k + (j + 1) = k + 1 + j := by omega
          rwa [harith] at hsucc
        have hbefore' : ∀ i, i < j → fn (k + 1 + i) ≠ none := by
          intro i hi
          have := hbefore (i + 1) (by omega)
          have harith : k + (i + 1) = k + 1 + i := by omega
          rwa [harith] at this
        have := ih (k + 1) j (by omega) hsucc' hbefore'
        constructor
        · simp only [retryLoop, h]
          exact this.1
        · simp only [retryLoopCount, h]
          omega

theorem RetryInt64_eq_Retry {α : Type} (tries : Int) (fn : Nat → Option α)
    (hlo : -9223372036854775808 < tries) (hhi : tries < 9223372036854775808) :
    RetryInt64 tries fn = Retry tries fn ∧
    RetryInt64Count tries fn = RetryCount tries fn := by
  have hw : wrap64 (tries - 1) = tries - 1 := by
    unfold wrap64
    have h0 : (0 : Int) ≤ tries - 1 + 9223372036854775808 := by omega
    have h1 : tries - 1 + 9223372036854775808 < 18446744073709551616 := by omega
    rw [Int.emod_eq_of_lt h0 h1]
    ring
  unfold RetryInt64 RetryInt64Count Retry RetryCount
  rw [hw]
  exact ⟨rfl, rfl⟩

/-- An always-failing retry predicate used as concrete input in witnesses. -/
def constFail : Nat → Option Nat := fun _ => some 3

/-- A retry predicate failing on its first invocation and succeeding on its
second, used as concrete input in witnesses. -/
def failThenOk : Nat → Option Nat
  | 0 => some 5
  | _ + 1 => none

/-- C4: for every attempt budget `n ≥ 1` (the amendment restricts the claim
to positive budgets, since `Retry 0 _ f` still invokes `f` once):
`Retry n d f` invokes `f` at most `n` times; if the first success is the
`j`-th invocation (0-based, `j < n`) the result is `nil` and no further
invocation happens (exactly `j + 1` in total); if every invocation fails the
result is exactly the error of the `n`-th (final) invocation. -/
theorem Retry_bounded_first_success_last_error {α : Type} (n : Int)
    (fn : Nat → Option α) (hn : 1 ≤ n) :
    RetryCount n fn ≤ n.toNat ∧
    ((∀ i, i < n.toNat → fn i ≠ none) → Retry n fn = fn (n.toNat - 1)) ∧
    (∀ j, j < n.toNat → fn j = none → (∀ i, i < j → fn i ≠ none) →
      Retry n fn = none ∧ RetryCount n fn = j + 1) := by
  have hm : (n - 1).toNat = n.toNat - 1 := by omega
  have hm1 : (n - 1).toNat + 1 = n.toNat := by omega
  refine ⟨?_, ?_, ?_⟩
  · have := retryLoopCount_le fn (n - 1).toNat 0
    unfold RetryCount
    omega
  · intro hall
    have h := retryLoop_all_fail fn (n - 1).toNat 0 (by
      intro i hi
      simp only [Nat.zero_add]
      exact hall i (by omega))
    unfold Retry
    rw [h.1]
    congr 1
    omega
  · intro j hj hsucc hbefore
    have h := retryLoop_first_success fn (n - 1).toNat 0 j (by omega)
      (by simpa using hsucc)
      (by intro i hi; simpa using hbefore i hi)
    exact ⟨h.1, h.2⟩

/-- Witness for C4 at concrete inputs: with budget 2 and an always-failing
predicate the result is the final (2nd) invocation's error, and with budget 2
and a predicate succeeding on its 2nd invocation the result is success after
exactly 2 invocations. -/
theorem Retry_bounded_first_success_last_error_witness :
    Retry 2 constFail = constFail 1 ∧
    (Retry 2 failThenOk = none ∧ RetryCount 2 failThenOk = 2) := by
  constructor
  · exact (Retry_bounded_first_success_last_error 2 constFail (by decide)).2.1
      (by intro i _; simp [constFail])
  · exact (Retry_bounded_first_success_last_error 2 failThenOk (by decide)).2.2
      1 (by decide) rfl
      (by intro i hi
          have : i = 0 := by omega
          subst this
          simp [failThenOk])

/-- Counterexample to C9 as stated: at `tries = math.MinInt64` Go's
`tries - 1` wraps to `math.MaxInt64`, so the loop bound is `2^63 - 1` and
an always-failing predicate is invoked 2^63 times in this model — more than
once.  (Go itself does not even stop there: its loop counter also wraps at
`math.MaxInt64`, so the model's count is a lower bound on Go's; either way
the claimed exactly-one invocation is false.) -/
theorem RetryInt64_min_int_counterexample :
    1 < RetryInt64Count (-9223372036854775808) constFail := by
  have hw : (wrap64 (-9223372036854775808 - 1)).toNat = 9223372036854775807 := by
    unfold wrap64
    omega
  have h := retryLoop_all_fail constFail 9223372036854775807 0
    (by intro i _; simp [constFail])
  unfold RetryInt64Count
  rw [hw, h.2]
  norm_num

/-- C9 as amended: for every int64 budget `tries ≤ 1` other than
`math.MinInt64` (including 0 and other negative values), `Retry tries d f`
invokes `f` exactly once and returns that invocation's result; and for
every budget whatsoever at least one invocation happens.  (At
`math.MinInt64` the Go subtraction `tries - 1` wraps to `math.MaxInt64`
and `f` is invoked far more than once, see the counterexample.) -/
theorem RetryInt64_low_budget_single_call {α : Type} (tries : Int)
    (fn : Nat → Option α) :
    (-9223372036854775808 < tries → tries ≤ 1 →
      RetryInt64 tries fn = fn 0 ∧ RetryInt64Count tries fn = 1) ∧
    1 ≤ RetryInt64Count tries fn := by
  constructor
  · intro hmin hle
    have hw : wrap64 (tries - 1) = tries - 1 := by
      unfold wrap64
      have h0 : (0 : Int) ≤ tries - 1 + 9223372036854775808 := by omega
      have h1 : tries - 1 + 9223372036854775808 < 18446744073709551616 := by omega
      rw [Int.emod_eq_of_lt h0 h1]
      ring
    have hz : (wrap64 (tries - 1)).toNat = 0 := by
      rw [hw]
      omega
    unfold RetryInt64 RetryInt64Count
    rw [hz]
    exact ⟨rfl, rfl⟩
  · exact retryLoopCount_pos fn (wrap64 (tries - 1)).toNat 0

/-- Witness for C9 (amended) at a concrete input: with budget `-3` and an
always-failing predicate, exactly one invocation happens and its error is
returned. -/
theorem RetryInt64_low_budget_single_call_witness :
    (RetryInt64 (-3) constFail = constFail 0 ∧
      RetryInt64Count (-3) constFail = 1) ∧
    1 ≤ RetryInt64Count (-3) constFail := by
  exact ⟨(RetryInt64_low_budget_single_call (-3) constFail).1
      (by norm_num) (by norm_num),
    (RetryInt64_low_budget_single_call (-3) constFail).2⟩

/-- Counterexample to C4 as stated: with `tries = 0` the code still invokes
the predicate once, so "invokes f at most n times" fails at `n = 0` (the
number of invocations is 1, not at most 0). -/
theorem Retry_zero_budget_counterexample :
    RetryCount 0 constFail = 1 ∧ ¬ RetryCount 0 constFail ≤ (0 : Int).toNat := by
  constructor
  · rfl
  · decide

/-! ## Height resolver

Modelled from `getNodeHeight` and its helpers in the node helper file.  The
`Node` interface has two implementations, `FullNode` and `LightNode`; a full
node carries a header sync service, a data sync service and a block manager
backed by the durable store, a light node only a header sync service.  The
sync-service `Store().Height()` calls are infallible `uint64` reads; the
block manager's `GetStoreHeight` returns `(uint64, error)`, modelled as
`Nat × Option String` (`none` = nil error). -/

/-- Source of a height query (`Header`, `Data`, `Store` in the Go enum). -/
inductive HeightSource
  | header
  | data
  | store
deriving DecidableEq

/-- A node, by role: `full` carries its header-sync height, its data-sync
height and the `(height, error)` result of its block manager's
`GetStoreHeight`; `light` only its header-sync height. -/
inductive NodeRole
  | full (headerSyncHeight : Nat) (dataSyncHeight : Nat)
      (storeHeightResult : Nat × Option String)
  | light (headerSyncHeight : Nat)
deriving DecidableEq

/-- Modelled from `getNodeHeightFromHeader`: both full and light nodes expose
a header sync service. -/
def getNodeHeightFromHeader : NodeRole → Nat × Option String
  | NodeRole.full h _ _ => (h, none)
  | NodeRole.light h => (h, none)

/-- Modelled from `getNodeHeightFromData`: only a full node exposes a data
sync service; anything else yields `(0, error)`. -/
def getNodeHeightFromData : NodeRole → Nat × Option String
  | NodeRole.full _ d _ => (d, none)
  | NodeRole.light _ => (0, some "not a full node")

/-- Modelled from `getNodeHeightFromStore`: only a full node exposes the
block manager's store; for a full node the `GetStoreHeight` result (which
may itself be an error) is returned unchanged. -/
def getNodeHeightFromStore : NodeRole → Nat × Option String
  | NodeRole.full _ _ s => s
  | NodeRole.light _ => (0, some "not a full node")

/-- Modelled from `getNodeHeight`: dispatch on the requested source. -/
def getNodeHeight (node : NodeRole) (source : HeightSource) :
    Nat × Option String :=
  match source with
  | HeightSource.header => getNodeHeightFromHeader node
  | HeightSource.data => getNodeHeightFromData node
  | HeightSource.store => getNodeHeightFromStore node

/-- Whether the node's role exposes the requested height source: the header
source exists for every role, the data and store sources only for a full
node. -/
def supportsSource : NodeRole → HeightSource → Bool
  | _, HeightSource.header => true
  | NodeRole.full _ _ _, _ => true
  | NodeRole.light _, _ => false

/-- Whether the node is a full node whose underlying `GetStoreHeight` call
reported an error. -/
def storeLookupFailed : NodeRole → Bool
  | NodeRole.full _ _ (_, some _) => true
  | _ => false

/-- Counterexample to C7 as stated: resolution does not fail "exactly when
the source is unsupported for the node's role" — a full node supports the
store source, yet the resolution fails when the underlying store height
lookup itself reports an error. -/
theorem getNodeHeight_store_error_counterexample :
    supportsSource (NodeRole.full 0 0 (0, some "store unavailable"))
        HeightSource.store = true ∧
    (getNodeHeight (NodeRole.full 0 0 (0, some "store unavailable"))
        HeightSource.store).2 = some "store unavailable" := by
  exact ⟨rfl, rfl⟩

/-- C7 as amended: height resolution fails exactly when the requested source
is unsupported for the node's role, or when the source is the store source
on a full node and the underlying store height lookup itself failed; on an
unsupported-source failure the returned height is 0; the header source
succeeds for both full and light nodes. -/
theorem getNodeHeight_unsupported_source (node : NodeRole)
    (source : HeightSource) :
    ((getNodeHeight node source).2 ≠ none ↔
      (supportsSource node source = false ∨
        (source = HeightSource.store ∧ storeLookupFailed node = true))) ∧
    (supportsSource node source = false →
      getNodeHeight node source = (0, some "not a full node")) ∧
    (getNodeHeightFromHeader node).2 = none := by
  cases node with
  | full h d s =>
    obtain ⟨sh, se⟩ := s
    cases source <;> cases se <;>
      simp [getNodeHeight, getNodeHeightFromHeader, getNodeHeightFromData,
        getNodeHeightFromStore, supportsSource, storeLookupFailed]
  | light h =>
    cases source <;>
      simp [getNodeHeight, getNodeHeightFromHeader, getNodeHeightFromData,
        getNodeHeightFromStore, supportsSource, storeLookupFailed]

/-- Witness for C7 (amended) at concrete inputs: a light node queried for the
data source fails with height 0, and its header source succeeds. -/
theorem getNodeHeight_unsupported_source_witness :
    getNodeHeight (NodeRole.light 5) HeightSource.data =
      (0, some "not a full node") ∧
    (getNodeHeightFromHeader (NodeRole.light 5)).2 = none := by
  exact ⟨(getNodeHeight_unsupported_source (NodeRole.light 5)
      HeightSource.data).2.1 rfl,
    (getNodeHeight_unsupported_source (NodeRole.light 5)
      HeightSource.data).2.2⟩

/-! ## Waiting on the DA-included height

Modelled from `waitForAtLeastNDAIncludedHeight`:

    func waitForAtLeastNDAIncludedHeight(node Node, n uint64) error {
        return Retry(300, 100*time.Millisecond, func() error {
            nHeight := node.(*FullNode).blockManager.GetDAIncludedHeight()
            if nHeight == 0 { return fmt.Errorf("waiting for DA inclusion") }
            if nHeight >= n { return nil }
            return fmt.Errorf(...)
        })
    }

`GetDAIncludedHeight` is an external read of shared state; it is modelled as
a function from the 0-based polling-attempt index to the height it reports. -/

/-- One polling attempt of the DA-included-height wait, as a function of the
reported height and the target `n`. -/
def daIncludedAttempt (nHeight n : Nat) : Option String :=
  if nHeight = 0 then some "waiting for DA inclusion"
  else if n ≤ nHeight then none
  else some ("expected height > " ++ toString n ++ ", got " ++ toString nHeight)

/-- Modelled from `waitForAtLeastNDAIncludedHeight`: retry the polling
attempt with budget 300, reading the DA-included height anew each attempt. -/
def waitForAtLeastNDAIncludedHeight (daIncludedHeight : Nat → Nat) (n : Nat) :
    Option String :=
  Retry 300 (fun k => daIncludedAttempt (daIncludedHeight k) n)

/-- C8: a polling attempt of the DA-included-height wait fails whenever the
reported height is exactly 0 and succeeds exactly when the reported height is
nonzero and at least the target `n`; consequently the wait as a whole can
never succeed while the reported DA-included height remains 0, even for
target `n = 0`. -/
theorem daIncludedHeight_zero_always_fails (f : Nat → Nat) (n : Nat) :
    (∀ h, daIncludedAttempt h n = none ↔ (h ≠ 0 ∧ n ≤ h)) ∧
    ((∀ k, f k = 0) → waitForAtLeastNDAIncludedHeight f n ≠ none) := by
  constructor
  · intro h
    unfold daIncludedAttempt
    by_cases h0 : h = 0
    · simp [h0]
    · by_cases hn : n ≤ h <;> simp [h0, hn]
  · intro hzero
    have hfn : ∀ k, daIncludedAttempt (f k) n = some "waiting for DA inclusion" := by
      intro k
      rw [hzero k]
      rfl
    have h := retryLoop_all_fail (fun k => daIncludedAttempt (f k) n) 299 0
      (by intro i _; simp only [Nat.zero_add]; rw [hfn i]; simp)
    unfold waitForAtLeastNDAIncludedHeight Retry
    have h299 : ((300 : Int) - 1).toNat = 299 := rfl
    rw [h299, h.1]
    simp [hfn]

/-- Witness for C8 at a concrete input: with the DA-included height pinned at
0 and target 0, the wait fails. -/
theorem daIncludedHeight_zero_always_fails_witness :
    waitForAtLeastNDAIncludedHeight (fun _ => 0) 0 ≠ none := by
  exact (daIncludedHeight_zero_always_fails (fun _ => 0) 0).2 (fun _ => rfl)

/-! ## Metadata store contract

Modelled from `types/metadata.go` (`GetKnownMetadataKeysList`) and the
`StoreServer.GetAllMetadata` RPC method.  The durable store's
`GetMetadata(ctx, key) -> ([]byte, error)` is an external collaborator,
modelled as a function `String → Option Bytes` (`none` = any error,
including not-found). -/

/-- Byte sequences (Go `[]byte`). -/
abbrev Bytes := List Nat

/-- Modelled from `GetKnownMetadataKeysList`: the ordered catalog of known
metadata keys. -/
def getKnownMetadataKeysList : List String :=
  ["d", "l", "last-submitted-header-height", "last-submitted-data-height"]

/-- The loop of `StoreServer.GetAllMetadata` over a key list: a key whose
store lookup errors is skipped, a successful lookup appends the `(key,
value)` entry in catalog order. -/
def getAllMetadataLoop (get : String → Option Bytes) :
    List String → List (String × Bytes)
  | [] => []
  | key :: rest =>
    match get key with
    | none => getAllMetadataLoop get rest
    | some value => (key, value) :: getAllMetadataLoop get rest

/-- Modelled from `StoreServer.GetAllMetadata`: iterate the known-key catalog
and return the entries whose lookup succeeds.  The call itself always
succeeds (the Go method returns a nil error unconditionally): a failed
lookup is only an absence signal. -/
def getAllMetadata (get : String → Option Bytes) : List (String × Bytes) :=
  getAllMetadataLoop get getKnownMetadataKeysList

theorem getAllMetadataLoop_mem (get : String → Option Bytes) :
    ∀ (ks : List String) (k : String) (v : Bytes),
      (k, v) ∈ getAllMetadataLoop get ks ↔ (k ∈ ks ∧ get k = some v) := by
  intro ks
  induction ks with
  | nil => intro k v; simp [getAllMetadataLoop]
  | cons key rest ih =>
    intro k v
    cases h : get key with
    | none =>
      simp only [getAllMetadataLoop, h, ih, List.mem_cons]
      constructor
      · exact fun hx => ⟨Or.inr hx.1, hx.2⟩
      · rintro ⟨hk | hk, hv⟩
        · subst hk
          rw [h] at hv
          exact absurd hv (by simp)
        · exact ⟨hk, hv⟩
    | some value =>
      simp only [getAllMetadataLoop, h, List.mem_cons, ih, Prod.mk.injEq]
      constructor
      · rintro (⟨hk, hv⟩ | ⟨hk, hv⟩)
        · subst hk; subst hv; exact ⟨Or.inl rfl, h⟩
        · exact ⟨Or.inr hk, hv⟩
      · rintro ⟨hk | hk, hv⟩
        · subst hk
          rw [h] at hv
          exact Or.inl ⟨rfl, (Option.some.injEq _ _).mp hv.symm⟩
        · exact Or.inr ⟨hk, hv⟩

/-- C5: `GetAllMetadata` returns exactly those of the 4 known keys whose
store lookup succeeds, each paired with the exact byte value the store
returned; a key whose lookup fails is omitted (and, the model being total,
never fails the call itself). -/
theorem getAllMetadata_exact_present_subset (get : String → Option Bytes)
    (k : String) (v : Bytes) :
    (k, v) ∈ getAllMetadata get ↔
      (k ∈ getKnownMetadataKeysList ∧ get k = some v) := by
  exact getAllMetadataLoop_mem get getKnownMetadataKeysList k v

theorem getAllMetadataLoop_keys_sublist (get : String → Option Bytes) :
    ∀ (ks : List String),
      ((getAllMetadataLoop get ks).map Prod.fst).Sublist ks := by
  intro ks
  induction ks with
  | nil => simp [getAllMetadataLoop]
  | cons key rest ih =>
    cases h : get key with
    | none =>
      simp only [getAllMetadataLoop, h]
      exact ih.cons key
    | some value =>
      simp only [getAllMetadataLoop, h, List.map_cons]
      exact ih.cons₂ key

/-- C10: the keys of the `GetAllMetadata` result form a subsequence of the
fixed known-key catalog order (`d`, `l`, `last-submitted-header-height`,
`last-submitted-data-height`), and two calls against the same store state
(extensionally equal lookup functions) return the same sequence. -/
theorem getAllMetadata_ordered_deterministic (get : String → Option Bytes) :
    ((getAllMetadata get).map Prod.fst).Sublist getKnownMetadataKeysList ∧
    (∀ get' : String → Option Bytes, (∀ k, get k = get' k) →
      getAllMetadata get = getAllMetadata get') := by
  constructor
  · exact getAllMetadataLoop_keys_sublist get getKnownMetadataKeysList
  · intro get' hext
    have : get = get' := funext hext
    rw [this]

/-- A concrete store lookup holding only the key `d`, for witnesses. -/
def getOnlyD : String → Option Bytes :=
  fun k => if k = "d" then some [42] else none

/-- Witness for C10 at a concrete input: with only `d` present, the result
keys are a subsequence of the catalog and the call is deterministic. -/
theorem getAllMetadata_ordered_deterministic_witness :
    ((getAllMetadata getOnlyD).map Prod.fst).Sublist getKnownMetadataKeysList ∧
    getAllMetadata getOnlyD = getAllMetadata getOnlyD := by
  exact ⟨(getAllMetadata_ordered_deterministic getOnlyD).1,
    (getAllMetadata_ordered_deterministic getOnlyD).2 getOnlyD (fun _ => rfl)⟩

/-! ## Block-by-height RPC

Modelled from the height branch of `StoreServer.GetBlock`:

    fetchHeight := identifier.Height
    if fetchHeight == 0 {
        fetchHeight, err = s.store.Height(ctx)
        if err != nil { return Internal error }
        if fetchHeight == 0 { return NotFound "store is empty, ..." }
    }
    header, data, err = s.store.GetBlockData(ctx, fetchHeight)
    if err != nil { return Internal error }

The durable store is an external collaborator, modelled by its `Height` and
`GetBlockData` results; the block payload type is an arbitrary type `β`.
The protobuf conversion of a successfully fetched block is out of scope. -/

/-- A connect RPC error, by code. -/
inductive ConnectErr
  | internal (msg : String)
  | notFound (msg : String)
  | invalidArgument (msg : String)
deriving DecidableEq

/-- The durable store as seen by `StoreServer.GetBlock`: its `Height` result
and its `GetBlockData` results per height (`Except.error` = Go error). -/
structure StoreBackend (β : Type) where
  storeHeight : Except String Nat
  getBlockData : Nat → Except String β

/-- The tail of the `GetBlock` height branch: fetch the block data at the
determined height, wrapping a store failure as an internal RPC error. -/
def fetchBlockAt {β : Type} (s : StoreBackend β) (h : Nat) :
    Except ConnectErr β :=
  match s.getBlockData h with
  | Except.error e =>
      Except.error (ConnectErr.internal ("failed to retrieve block data: " ++ e))
  | Except.ok bd => Except.ok bd

/-- Modelled from the `GetBlockRequest_Height` branch of
`StoreServer.GetBlock`: height 0 means "latest" and is resolved through the
store's height; a resolved height of 0 (empty store) is a not-found error;
a positive requested height is fetched directly. -/
def getBlockByHeight {β : Type} (s : StoreBackend β) (requested : Nat) :
    Except ConnectErr β :=
  if requested = 0 then
    match s.storeHeight with
    | Except.error e =>
        Except.error (ConnectErr.internal ("failed to get latest height: " ++ e))
    | Except.ok h =>
        if h = 0 then
          Except.error (ConnectErr.notFound "store is empty, no latest block available")
        else fetchBlockAt s h
  else fetchBlockAt s requested

/-- C6: a requested height of 0 means "latest": it is resolved through the
store's height and, when that height `h` is nonzero, the block at `h` is
fetched; when the store's height is 0 the request fails with a not-found
error and the block fetch is never consulted (the result is the same for
every `getBlockData`); a positive requested height is fetched directly and
the store's height is never consulted. -/
theorem getBlockByHeight_latest_semantics {β : Type} (s : StoreBackend β) :
    (∀ h, s.storeHeight = Except.ok h → h ≠ 0 →
      getBlockByHeight s 0 = fetchBlockAt s h) ∧
    (s.storeHeight = Except.ok 0 →
      (getBlockByHeight s 0 =
        Except.error (ConnectErr.notFound "store is empty, no latest block available") ∧
      ∀ gbd : Nat → Except String β,
        getBlockByHeight (StoreBackend.mk s.storeHeight gbd) 0 =
          getBlockByHeight s 0)) ∧
    (∀ requested, requested ≠ 0 →
      (getBlockByHeight s requested = fetchBlockAt s requested ∧
      ∀ sh : Except String Nat,
        getBlockByHeight (StoreBackend.mk sh s.getBlockData) requested =
          getBlockByHeight s requested)) := by
  refine ⟨?_, ?_, ?_⟩
  · intro h hh hnz
    have hfetch : fetchBlockAt (StoreBackend.mk s.storeHeight s.getBlockData) h =
        fetchBlockAt s h := rfl
    simp [getBlockByHeight, hh, hnz]
  · intro hh
    constructor
    · simp [getBlockByHeight, hh]
    · intro gbd
      simp [getBlockByHeight, hh]
  · intro requested hreq
    constructor
    · simp [getBlockByHeight, hreq]
    · intro sh
      simp [getBlockByHeight, hreq, fetchBlockAt]

/-- A concrete store with height 3 where every height holds a block, for
witnesses. -/
def storeWithThree : StoreBackend Nat :=
  StoreBackend.mk (Except.ok 3) (fun h => Except.ok (h * 10))

/-- Witness for C6 at concrete inputs: against a store of height 3, the
"latest" request (height 0) fetches the block at height 3, and a direct
request for height 2 fetches the block at height 2. -/
theorem getBlockByHeight_latest_semantics_witness :
    getBlockByHeight storeWithThree 0 = fetchBlockAt storeWithThree 3 ∧
    getBlockByHeight storeWithThree 2 = fetchBlockAt storeWithThree 2 := by
  exact ⟨(getBlockByHeight_latest_semantics storeWithThree).1 3 rfl (by decide),
    ((getBlockByHeight_latest_semantics storeWithThree).2.2 2 (by decide)).1⟩

/-! ## Block and header validity

Modelled from the pseudocode in `specs/src/specs/block-validity.md`.  Byte
fields are `Bytes`; Go nil-able pointers and slices are `Option`-wrapped.
The cryptographic primitives — header hash, commit hash, validator-set hash,
data hash and signature verification — are assumed-correct external
functions, passed as explicit parameters. -/

/-- The address size a validator address must have
(`crypto.AddressSize = 20` in cometbft). -/
def addressSize : Nat := 20

/-- BaseHeader: height, time and chain id. -/
structure BaseHeader where
  height : Nat
  time : Nat
  chainID : String
deriving DecidableEq

/-- Header, with its nil-able proposer address. -/
structure Header where
  base : BaseHeader
  lastHeaderHash : Bytes
  lastCommitHash : Bytes
  dataHash : Bytes
  consensusHash : Bytes
  appHash : Bytes
  lastResultsHash : Bytes
  proposerAddress : Option Bytes
deriving DecidableEq

/-- A public key (nil-able where it occurs in a validator). -/
structure PubKey where
  bytes : Bytes
deriving DecidableEq

/-- A validator: an address and a nil-able public key.  A validator pointer
inside a set may itself be nil, hence `Option Validator` at use sites. -/
structure Validator where
  address : Bytes
  pubKey : Option PubKey
deriving DecidableEq

/-- A validator set: nil-able validator pointers and a nil-able proposer. -/
structure ValidatorSet where
  validators : List (Option Validator)
  proposer : Option Validator
deriving DecidableEq

/-- A signed header: header, signature bytes, nil-able validator set, and the
aggregators hash cross-checked against the set's hash. -/
structure SignedHeader where
  header : Header
  signature : Bytes
  validators : Option ValidatorSet
  aggregatorsHash : Bytes
deriving DecidableEq

/-- Block data: the ordered transactions. -/
structure BlockData where
  txs : List Bytes
deriving DecidableEq

/-- A block: a signed header and its data. -/
structure Block where
  signedHeader : SignedHeader
  blockData : BlockData
deriving DecidableEq

/-- Modelled from `Header.ValidateBasic()`: the proposer address must not be
nil. -/
def Header.validateBasic (h : Header) : Bool :=
  h.proposerAddress.isSome

/-- Modelled from `Signature.ValidateBasic()`: at least one signature byte
must be present. -/
def signatureValidateBasic (sig : Bytes) : Bool :=
  !sig.isEmpty

/-- Modelled from `Validator.ValidateBasic()`: the validator is not nil, its
public key is not nil and its address has the correct size. -/
def Validator.validateBasic : Option Validator → Bool
  | none => false
  | some v => v.pubKey.isSome && (v.address.length == addressSize)

/-- Modelled from `Validators.ValidateBasic()`: the set is non-empty, every
validator passes basic validation, and so does the proposer. -/
def ValidatorSet.validateBasic (vs : ValidatorSet) : Bool :=
  (!vs.validators.isEmpty) &&
  vs.validators.all Validator.validateBasic &&
  Validator.validateBasic vs.proposer

/-- The signature verification step of `SignedHeader.ValidateBasic()`:
verify the signature against the computed header hash using the proposer's
public key (false when the proposer or its key is nil; basic validation of
the set runs first and rules that out). -/
def proposerSignatureOK (headerHash : Header → Bytes)
    (sigVerify : PubKey → Bytes → Bytes → Bool)
    (sh : SignedHeader) (vs : ValidatorSet) : Bool :=
  match vs.proposer with
  | none => false
  | some p =>
    match p.pubKey with
    | none => false
    | some pk => sigVerify pk (headerHash sh.header) sh.signature

/-- Modelled from `SignedHeader.ValidateBasic()`: header and signature basic
validation first; then, if the validator set is nil or empty, the block is a
based-rollup block and all remaining checks are skipped; otherwise the set
is validated, its hash compared with the aggregators hash, and the signature
verified with the proposer's key. -/
def SignedHeader.validateBasic (headerHash : Header → Bytes)
    (valSetHash : ValidatorSet → Bytes)
    (sigVerify : PubKey → Bytes → Bytes → Bool)
    (sh : SignedHeader) : Bool :=
  sh.header.validateBasic &&
  signatureValidateBasic sh.signature &&
  (match sh.validators with
   | none => true
   | some vs =>
     if vs.validators.isEmpty then true
     else
       vs.validateBasic &&
       (valSetHash vs == sh.aggregatorsHash) &&
       proposerSignatureOK headerHash sigVerify sh vs)

/-- Modelled from `Block.ValidateBasic()`: the signed header passes basic
validation, `Data.ValidateBasic()` always passes, and the data hash must
equal the header's `DataHash`. -/
def Block.validateBasic (headerHash : Header → Bytes)
    (valSetHash : ValidatorSet → Bytes)
    (sigVerify : PubKey → Bytes → Bytes → Bool)
    (dataHash : BlockData → Bytes)
    (b : Block) : Bool :=
  SignedHeader.validateBasic headerHash valSetHash sigVerify b.signedHeader &&
  (dataHash b.blockData == b.signedHeader.header.dataHash)

/-- Based-rollup mode: the signed header's validator set is nil or empty. -/
def basedRollupMode (sh : SignedHeader) : Prop :=
  sh.validators = none ∨
  ∃ vs, sh.validators = some vs ∧ vs.validators = []

/-- C3 as amended: `ValidateBasic(B)` succeeds iff the header's proposer
address is non-nil, the signature is non-empty, the data hash matches the
header's `DataHash`, and either the validator set is nil/empty (based-rollup
short-circuit) or the set is non-empty, every validator and the proposer
pass basic validation, the set's hash equals the aggregators hash, and the
signature verifies against the header hash with the proposer's key.  (The
amendment adds the proposer-address and non-empty-signature checks, which
the code runs before the based-rollup short-circuit.) -/
theorem validateBasic_characterization (headerHash : Header → Bytes)
    (valSetHash : ValidatorSet → Bytes)
    (sigVerify : PubKey → Bytes → Bytes → Bool)
    (dataHash : BlockData → Bytes) (b : Block) :
    Block.validateBasic headerHash valSetHash sigVerify dataHash b = true ↔
      (b.signedHeader.header.proposerAddress.isSome = true ∧
       b.signedHeader.signature ≠ [] ∧
       dataHash b.blockData = b.signedHeader.header.dataHash ∧
       (basedRollupMode b.signedHeader ∨
        ∃ vs, b.signedHeader.validators = some vs ∧ vs.validators ≠ [] ∧
          vs.validateBasic = true ∧
          valSetHash vs = b.signedHeader.aggregatorsHash ∧
          proposerSignatureOK headerHash sigVerify b.signedHeader vs = true)) := by
  obtain ⟨⟨hdr, sig, vals, agg⟩, bd⟩ := b
  cases vals with
  | none =>
    simp [Block.validateBasic, SignedHeader.validateBasic, Header.validateBasic,
      signatureValidateBasic, basedRollupMode, List.isEmpty_iff, and_assoc]
  | some vs =>
    by_cases he : vs.validators = []
    · simp [Block.validateBasic, SignedHeader.validateBasic, Header.validateBasic,
        signatureValidateBasic, basedRollupMode, List.isEmpty_iff, he, and_assoc]
    · simp only [Block.validateBasic, SignedHeader.validateBasic,
        Header.validateBasic, signatureValidateBasic, basedRollupMode,
        List.isEmpty_iff, he, Bool.and_eq_true, Bool.not_eq_true',
        List.isEmpty_eq_false, beq_iff_eq, if_false, Option.some.injEq,
        reduceCtorEq, false_or, exists_eq_left', ne_eq, not_false_eq_true,
        true_and]
      constructor
      · rintro ⟨⟨⟨hp, hs⟩, ⟨hvb, hagg⟩, hsig⟩, hdh⟩
        exact ⟨hp, hs, hdh, hvb, hagg, hsig⟩
      · rintro ⟨hp, hs, hdh, hvb, hagg, hsig⟩
        exact ⟨⟨⟨hp, hs⟩, ⟨hvb, hagg⟩, hsig⟩, hdh⟩

/-- A concrete, structure-sensitive header hash for counterexamples and
witnesses (the real hash is an external primitive). -/
def exHeaderHash : Header → Bytes :=
  fun h => h.base.height :: h.lastHeaderHash

/-- A concrete commit hash of a signature, for counterexamples and
witnesses. -/
def exCommitHash : Bytes → Bytes :=
  fun s => 7 :: s

/-- A concrete validator-set hash, for counterexamples and witnesses. -/
def exValSetHash : ValidatorSet → Bytes :=
  fun vs => [vs.validators.length]

/-- A concrete signature verifier accepting everything, for counterexamples
and witnesses. -/
def exSigVerify : PubKey → Bytes → Bytes → Bool :=
  fun _ _ _ => true

/-- A concrete data hash, for counterexamples and witnesses. -/
def exDataHash : BlockData → Bytes :=
  fun d => [d.txs.length]

/-- A block whose header lacks a proposer address but whose validator set is
nil and whose data hash matches: the per-field checks named by C3 all pass,
yet basic validation fails on the proposer-address check. -/
def blockNoProposer : Block :=
  Block.mk
    (SignedHeader.mk
      (Header.mk (BaseHeader.mk 1 0 "test") [] [] [0] [] [] [] none)
      [1] none [])
    (BlockData.mk [])

/-- Counterexample to C3 as stated: for `blockNoProposer` the claimed
right-hand side holds (matching data hash, nil validator set), yet
`ValidateBasic` fails, because the proposer-address check (and the
non-empty-signature check) run before the based-rollup short-circuit and
are missing from the claim's characterization. -/
theorem validateBasic_missing_proposer_counterexample :
    Block.validateBasic exHeaderHash exValSetHash exSigVerify exDataHash
        blockNoProposer = false ∧
    exDataHash blockNoProposer.blockData =
      blockNoProposer.signedHeader.header.dataHash ∧
    blockNoProposer.signedHeader.validators = none := by
  exact ⟨rfl, rfl, rfl⟩

/-! ## Verification against the previous block

Modelled from the `Block.Verify()` pseudocode in
`specs/src/specs/block-validity.md` (its own comment: "code does not match
spec, see rollkit issue 1277"):

    SignedHeader.Verify(untrustH *SignedHeader)
      Header.Verify(untrustH *SignedHeader)
        if untrustH.Height == h.Height + 1, then apply the following check:
          untrstH.AggregatorsHash[:], h.NextAggregatorsHash[:]
      if untrustH.Height > h.Height + 1:
        soft verification failure
      // We should know they're adjacent now,
      // verify the link to previous.
      untrustH.LastHeaderHash == h.Header.Hash()
      // Verify LastCommit hash
      untrustH.LastCommitHash == sh.Signature.GetCommitHash(...)

The adjacent-case aggregators-continuity check of `Header.Verify` is a
no-op: the same document's Header section states that the
`AggregatorsHash`/`NextAggregatorsHash` fields have been removed, and the
spec states the check never fails in the fixed single-sequencer
configuration, so it is omitted here.  A failed link assertion is a hard
failure; the height-gap case is the soft failure.  Note the pseudocode has
no branch for `untrustH.Height <= h.Height`: such a candidate falls through
to the link assertions. -/

/-- Outcome of verifying a candidate against the accepted head. -/
inductive VerifyResult
  | accept
  | softFail
  | hardFail
deriving DecidableEq

/-- Modelled from `SignedHeader.Verify(untrustH)` as documented: `accepted`
is the accepted head (`h`/`sh` in the pseudocode), `candidate` the untrusted
new signed header. -/
def SignedHeader.verify (headerHash : Header → Bytes)
    (commitHash : Bytes → Bytes)
    (accepted candidate : SignedHeader) : VerifyResult :=
  if accepted.header.base.height + 1 < candidate.header.base.height then
    VerifyResult.softFail
  else if candidate.header.lastHeaderHash ≠ headerHash accepted.header then
    VerifyResult.hardFail
  else if candidate.header.lastCommitHash ≠ commitHash accepted.signature then
    VerifyResult.hardFail
  else VerifyResult.accept

/-- C1: for every accepted head `A` and candidate `C` at the adjacent height
`A.Height + 1`, `Verify(A, C)` accepts iff `C`'s `LastHeaderHash` equals the
hash of `A`'s header and `C`'s `LastCommitHash` equals the commit hash of
`A`'s signature; a mismatch of either hash yields a hard failure. -/
theorem verify_adjacent_accept_iff (headerHash : Header → Bytes)
    (commitHash : Bytes → Bytes) (A C : SignedHeader)
    (hadj : C.header.base.height = A.header.base.height + 1) :
    (SignedHeader.verify headerHash commitHash A C = VerifyResult.accept ↔
      (C.header.lastHeaderHash = headerHash A.header ∧
       C.header.lastCommitHash = commitHash A.signature)) ∧
    ((C.header.lastHeaderHash ≠ headerHash A.header ∨
      C.header.lastCommitHash ≠ commitHash A.signature) →
      SignedHeader.verify headerHash commitHash A C = VerifyResult.hardFail) := by
  have hnogap : ¬ A.header.base.height + 1 < C.header.base.height := by omega
  by_cases h1 : C.header.lastHeaderHash = headerHash A.header <;>
    by_cases h2 : C.header.lastCommitHash = commitHash A.signature <;>
      simp [SignedHeader.verify, hnogap, h1, h2]

/-- A concrete accepted head at height 5, for witnesses and failing
inputs. -/
def acceptedHead : SignedHeader :=
  SignedHeader.mk
    (Header.mk (BaseHeader.mk 5 0 "test") [1] [2] [0] [] [] []
      (some (List.replicate addressSize 0)))
    [9] none []

/-- A concrete candidate at the adjacent height 6 whose link hashes match
`acceptedHead` under the concrete hash functions. -/
def adjacentCandidate : SignedHeader :=
  SignedHeader.mk
    (Header.mk (BaseHeader.mk 6 0 "test") (exHeaderHash acceptedHead.header)
      (exCommitHash acceptedHead.signature) [0] [] [] []
      (some (List.replicate addressSize 0)))
    [3] none []

/-- Witness for C1 at concrete inputs: the adjacent candidate with matching
link hashes is accepted. -/
theorem verify_adjacent_accept_iff_witness :
    SignedHeader.verify exHeaderHash exCommitHash acceptedHead
      adjacentCandidate = VerifyResult.accept := by
  exact (verify_adjacent_accept_iff exHeaderHash exCommitHash acceptedHead
    adjacentCandidate rfl).1.mpr ⟨rfl, rfl⟩

/-- A concrete stale candidate: same height 5 as the accepted head, but with
its link fields set byte-for-byte to the accepted head's header hash and
commit hash. -/
def staleCandidate : SignedHeader :=
  SignedHeader.mk
    (Header.mk (BaseHeader.mk 5 0 "test") (exHeaderHash acceptedHead.header)
      (exCommitHash acceptedHead.signature) [0] [] [] []
      (some (List.replicate addressSize 0)))
    [3] none []

/-- C2's failing input: the documented `Verify` algorithm has no branch for
`candidate.Height <= accepted.Height` — such a candidate falls through to
the link assertions, so a stale candidate at the accepted head's own height
whose link fields are set to the accepted head's hashes is accepted, where
the claim (and the spec's intended three-way semantics) demands a hard
failure. -/
theorem verify_stale_candidate_accepted_bug :
    staleCandidate.header.base.height ≤ acceptedHead.header.base.height ∧
    SignedHeader.verify exHeaderHash exCommitHash acceptedHead staleCandidate =
      VerifyResult.accept := by
  exact ⟨by decide, by decide⟩

end Rollkit
